import Mathlib

/-!
Verification of the screenlocker repository's `Application` class
(`src/screenlocker/application.cpp`) against its specification.

The C++ code is shallowly embedded: the mutable per-screen overlay views
(`m_views`, a `QList<QQuickView*>`) become a `List View` where each `View`
records the observable window state (assigned screen, geometry, keyboard
grab flag, shown/full-screen/raised flags) together with an identity tag
`vid` standing for the C++ object pointer.  Window-system side effects
(sending events, grabbing the keyboard, requesting activation, starting
the unlock animation, exiting) are recorded as an explicit `Act` trace.
-/

set_option autoImplicit false

namespace ScreenLocker

/-- A point, standing for `QPoint` (the cursor position). -/
structure Point where
  x : Int
  y : Int
deriving DecidableEq, Repr

/-- A rectangle, standing for `QRect` (x, y, width, height). -/
structure Rect where
  x : Int
  y : Int
  w : Int
  h : Int
deriving DecidableEq, Repr

/-- `QRect::contains(QPoint)`: the point lies between the left/right and
top/bottom edges, where the right edge is `x + w - 1` and the bottom edge
is `y + h - 1`. -/
def Rect.containsP (r : Rect) (p : Point) : Bool :=
  decide (r.x ≤ p.x) && decide (p.x ≤ r.x + r.w - 1) &&
  decide (r.y ≤ p.y) && decide (p.y ≤ r.y + r.h - 1)

/-- A connected screen, standing for `QScreen*`: an identity `sid` (the
pointer) and its geometry.  `QGuiApplication::screens()` becomes a
`List Screen` passed explicitly to the operations that read it. -/
structure Screen where
  sid : Nat
  geometry : Rect
deriving DecidableEq, Repr

/-- An overlay view, standing for `QQuickView*`: the identity `vid` (the
pointer), the screen assigned by `setScreen` (none before any assignment),
the window geometry, and the observable window flags touched by the code:
`keyboardGrab` (`setKeyboardGrabEnabled`), `shown` / `fullScreen`
(`show` / `showFullScreen`), `raised` (`raise`). -/
structure View where
  vid : Nat
  screenId : Option Nat
  geometry : Rect
  keyboardGrab : Bool
  shown : Bool
  fullScreen : Bool
  raised : Bool
deriving DecidableEq, Repr

/-- Default view used with `List.getD`. -/
def dummyView : View :=
  { vid := 0, screenId := none, geometry := ⟨0, 0, 0, 0⟩, keyboardGrab := false,
    shown := false, fullScreen := false, raised := false }

/-- Default screen used with `List.getD`. -/
def dummyScreen : Screen := { sid := 0, geometry := ⟨0, 0, 0, 0⟩ }

/-- The mutable state of the `Application` object that the verified
operations touch: `m_views`, a counter supplying identities for newly
created views (fresh `QQuickView` allocations), whether the application's
own event filter is installed (`installEventFilter(this)` /
`removeEventFilter(this)`), and `m_testing`. -/
structure AppState where
  views : List View
  nextId : Nat
  filterInstalled : Bool
  testing : Bool
deriving DecidableEq, Repr

/-- The view constructed by `new QQuickView` in `desktopResized` for
screen geometry `g`: geometry is set from the screen, no screen has been
assigned yet by `setScreen`, and the window is not yet shown. -/
def newView (idv : Nat) (g : Rect) : View :=
  { vid := idv, screenId := none, geometry := g, keyboardGrab := false,
    shown := false, fullScreen := false, raised := false }

/-- The creation loop of `desktopResized`
(`for (int i = m_views.count(); i < nScreens; ++i)`): one fresh view per
remaining screen, with its geometry taken from that screen. -/
def createdViews : List Screen → Nat → List View
  | [], _ => []
  | sc :: rest, next => newView next sc.geometry :: createdViews rest (next + 1)

/-- The update loop of `desktopResized`
(`for (int i = 0; i < nScreens; ++i)`): the view at index `i` gets
`setScreen(screens[i])`, is shown (`show()` when testing,
`showFullScreen()` otherwise) and raised. -/
def assignScreens (testing : Bool) : List View → List Screen → List View
  | [], _ => []
  | v :: vs, [] => v :: vs
  | v :: vs, sc :: scs =>
    { v with screenId := some sc.sid, shown := true,
             fullScreen := !testing, raised := true }
      :: assignScreens testing vs scs

/-- `Application::desktopResized` for the current screen list: surplus
views are removed from the tail (`m_views.takeLast()->deleteLater()` while
`m_views.count() > nScreens`), new views are created for the remaining
screens, then every view in range is assigned its screen, shown and
raised. -/
def desktopResized (screens : List Screen) (s : AppState) : AppState :=
  let kept := s.views.take screens.length
  let created := createdViews (screens.drop kept.length) s.nextId
  { s with views := assignScreens s.testing (kept ++ created) screens,
           nextId := s.nextId + created.length }

theorem createdViews_length (ss : List Screen) (n : Nat) :
    (createdViews ss n).length = ss.length := by
  induction ss generalizing n with
  | nil => rfl
  | cons sc rest ih => simp [createdViews, ih]

theorem assignScreens_length (t : Bool) (vs : List View) (ss : List Screen) :
    (assignScreens t vs ss).length = vs.length := by
  induction vs generalizing ss with
  | nil => cases ss <;> rfl
  | cons v vs ih => cases ss with
    | nil => rfl
    | cons sc scs => simp [assignScreens, ih]

theorem getD_append_left {α : Type} (l l' : List α) (d : α) (i : Nat)
    (h : i < l.length) : (l ++ l').getD i d = l.getD i d := by
  induction l generalizing i with
  | nil => simp at h
  | cons a as ih =>
    cases i with
    | zero => rfl
    | succ j =>
      simp only [List.cons_append, List.getD_cons_succ]
      exact ih j (by simpa using h)

theorem getD_take {α : Type} (l : List α) (n i : Nat) (d : α) (h : i < n) :
    (l.take n).getD i d = l.getD i d := by
  induction l generalizing n i with
  | nil => simp
  | cons a as ih =>
    cases n with
    | zero => omega
    | succ m =>
      cases i with
      | zero => rfl
      | succ j =>
        simp only [List.take_succ_cons, List.getD_cons_succ]
        exact ih m j (by omega)

theorem assignScreens_getD (t : Bool) (vs : List View) (ss : List Screen)
    (i : Nat) (hi : i < ss.length) (hv : i < vs.length) :
    (assignScreens t vs ss).getD i dummyView =
      { vs.getD i dummyView with
          screenId := some ((ss.getD i dummyScreen).sid), shown := true,
          fullScreen := !t, raised := true } := by
  induction vs generalizing ss i with
  | nil => simp at hv
  | cons v vtl ih =>
    cases ss with
    | nil => simp at hi
    | cons sc scs =>
      cases i with
      | zero => rfl
      | succ j =>
        simp only [assignScreens, List.getD_cons_succ]
        exact ih scs j (by simpa using hi) (by simpa using hv)

/-- C1: after every completed run of `Application::desktopResized`, the
number of overlay views in `m_views` equals the number of connected
screens: surplus views are deleted when screens shrink and new views are
created when screens grow, so there is one overlay per connected screen. -/
theorem C1_one_view_per_screen (screens : List Screen) (s : AppState) :
    (desktopResized screens s).views.length = screens.length := by
  unfold desktopResized
  simp only [assignScreens_length, List.length_append, List.length_take,
    createdViews_length, List.length_drop]
  omega

/-- Concrete geometry used by witness states. -/
def rectA : Rect := ⟨0, 0, 1920, 1080⟩

/-- Concrete geometry used by witness states. -/
def rectB : Rect := ⟨1920, 0, 1280, 1024⟩

/-- A concrete connected screen. -/
def screenA : Screen := { sid := 10, geometry := rectA }

/-- A second concrete connected screen. -/
def screenB : Screen := { sid := 11, geometry := rectB }

/-- A concrete overlay view already set up on `screenA`. -/
def viewA : View :=
  { vid := 5, screenId := some 10, geometry := rectA, keyboardGrab := true,
    shown := true, fullScreen := true, raised := true }

/-- A concrete overlay view already set up on `screenB`. -/
def viewB : View :=
  { vid := 6, screenId := some 11, geometry := rectB, keyboardGrab := true,
    shown := true, fullScreen := true, raised := true }

/-- A concrete application state with a single view on `screenA`. -/
def stateA : AppState :=
  { views := [viewA], nextId := 6, filterInstalled := true, testing := false }

/-- A concrete application state with two views. -/
def stateAB : AppState :=
  { views := [viewA, viewB], nextId := 7, filterInstalled := true, testing := false }

/-- C2: screens are mapped to views by positional index: after
`desktopResized` the view at index `i` has been assigned (`setScreen`) the
screen at index `i` of `screens()`, and since shrinking only removes views
from the tail of `m_views`, any view that existed at an index still in
range keeps both its position and its identity. -/
theorem C2_positional_mapping (screens : List Screen) (s : AppState)
    (i : Nat) (hi : i < screens.length) :
    ((desktopResized screens s).views.getD i dummyView).screenId
        = some ((screens.getD i dummyScreen).sid)
    ∧ (i < s.views.length →
        ((desktopResized screens s).views.getD i dummyView).vid
          = (s.views.getD i dummyView).vid) := by
  have hlen : (s.views.take screens.length
      ++ createdViews (screens.drop (s.views.take screens.length).length)
          s.nextId).length = screens.length := by
    simp only [List.length_append, List.length_take, createdViews_length,
      List.length_drop]
    omega
  have hviews : (desktopResized screens s).views
      = assignScreens s.testing
          (s.views.take screens.length
            ++ createdViews (screens.drop (s.views.take screens.length).length)
                s.nextId)
          screens := rfl
  have hassign := assignScreens_getD s.testing
    (s.views.take screens.length
      ++ createdViews (screens.drop (s.views.take screens.length).length)
          s.nextId)
    screens i hi (by rw [hlen]; exact hi)
  constructor
  · rw [hviews, hassign]
  · intro hold
    rw [hviews, hassign]
    have happ : ((s.views.take screens.length
        ++ createdViews (screens.drop (s.views.take screens.length).length)
            s.nextId).getD i dummyView)
        = (s.views.take screens.length).getD i dummyView :=
      getD_append_left _ _ _ i (by simp only [List.length_take]; omega)
    simp only [happ, getD_take _ _ _ _ hi]

/-- Witness for C2 at a concrete input: one existing view, two screens;
index 0 keeps the old view's identity and both indices get the matching
screen. -/
theorem C2_positional_mapping_witness :
    (((desktopResized [screenA, screenB] stateA).views.getD 0
        dummyView).screenId = some (([screenA, screenB].getD 0 dummyScreen).sid))
    ∧ (((desktopResized [screenA, screenB] stateA).views.getD 0
        dummyView).vid = ((stateA.views.getD 0 dummyView).vid)) :=
  ⟨(C2_positional_mapping [screenA, screenB] stateA 0 (by decide)).1,
   (C2_positional_mapping [screenA, screenB] stateA 0 (by decide)).2
     (by decide)⟩

/-- `QEvent` types the event filter distinguishes; `otherType` covers all
remaining `QEvent::Type` values. -/
inductive EvType where
  | show
  | mouseButtonPress
  | keyPress
  | keyRelease
  | otherType
deriving DecidableEq, Repr

/-- `Qt::Key_Escape`. -/
def keyEscape : Nat := 0x01000000

/-- A `QEvent*`: its type, its key code (meaningful for key events, read
via `static_cast<QKeyEvent*>`) and its mutable accepted flag
(`isAccepted` / `setAccepted`). -/
structure Ev where
  type : EvType
  key : Nat
  accepted : Bool
deriving DecidableEq, Repr

/-- The `QObject*` argument of `eventFilter`: the application itself
(`obj == this`), one of the overlay views, or some other object
(for which `qobject_cast<QQuickView *>` yields null). -/
inductive Obj where
  | app
  | view (vid : Nat)
  | otherObj (oid : Nat)
deriving DecidableEq, Repr

/-- `qobject_cast<QQuickView *>(obj)`: the view identity, or none. -/
def castView : Obj → Option Nat
  | .view i => some i
  | _ => none

/-- The unlock-animation easing curve (`QEasingCurve::OutSine`). -/
inductive Easing where
  | outSine
deriving DecidableEq, Repr

/-- A window-system or event-loop side effect performed by the embedded
operations, in program order. -/
inductive Act where
  | removeFilter
  | installFilter
  | sendEvent (vid : Nat) (acceptedAtSend : Bool)
  | setAccepted (b : Bool)
  | requestActivate (vid : Nat)
  | setKeyboardGrab (vid : Nat) (enabled : Bool)
  | startAnimation (vid : Nat) (startY endY : Int) (durationMs : Nat)
      (easing : Easing) (exitOnFinish : Bool)
  | exitApp
deriving DecidableEq, Repr

/-- The search loop of `Application::getActiveScreen`: the first view
whose geometry contains the cursor position. -/
def findCursorView (cursor : Point) : List View → Option View
  | [] => none
  | v :: vs =>
    if v.geometry.containsP cursor then some v else findCursorView cursor vs

/-- `Application::getActiveScreen`: null when `m_views` is empty;
otherwise the first view whose geometry contains `QCursor::pos()`, or
`m_views.first()` when no geometry contains it. -/
def getActiveScreen (cursor : Point) (views : List View) : Option View :=
  match views with
  | [] => none
  | v0 :: _ =>
    match findCursorView cursor views with
    | some v => some v
    | none => some v0

/-- The forwarding loop of `Application::shareEvent`: for every view other
than `from` the event is sent (`QCoreApplication::sendEvent`, whose effect
on the accepted flag is the oracle `recv`) and the accepted flag is then
restored to the stored entry value `acc0`.  Returns the event after the
loop and the recorded actions. -/
def shareLoop (recv : Nat → Ev → Bool) (acc0 : Bool) (f : Nat) :
    List View → Ev → Ev × List Act
  | [], e => (e, [])
  | v :: vs, e =>
    if v.vid = f then shareLoop recv acc0 f vs e
    else
      let e1 : Ev := { e with accepted := recv v.vid e }
      let e2 : Ev := { e1 with accepted := acc0 }
      let r := shareLoop recv acc0 f vs e2
      (r.1, Act.sendEvent v.vid e.accepted :: Act.setAccepted acc0 :: r.2)

/-- `Application::shareEvent`: nothing happens when `from` is null or not
contained in `m_views`; otherwise the application's own event filter is
removed, the entry accepted state is stored, the event is sent to every
other view (restoring the accepted flag after each send), and the filter
is reinstalled. -/
def shareEvent (recv : Nat → Ev → Bool) (s : AppState) (fromV : Option Nat)
    (e : Ev) : AppState × Ev × List Act :=
  match fromV with
  | none => (s, e, [])
  | some f =>
    if s.views.any (fun v => v.vid = f) then
      let acc0 := e.accepted
      let r := shareLoop recv acc0 f s.views e
      ({ s with filterInstalled := true }, r.1,
        Act.removeFilter :: (r.2 ++ [Act.installFilter]))
    else (s, e, [])

/-- The `sendEvent` actions of a trace, as (view, accepted-at-send)
pairs in order. -/
def sendsOf (tr : List Act) : List (Nat × Bool) :=
  tr.filterMap fun a =>
    match a with
    | .sendEvent i b => some (i, b)
    | _ => none

theorem sendsOf_nil : sendsOf [] = [] := rfl

theorem sendsOf_send (i : Nat) (b : Bool) (tr : List Act) :
    sendsOf (Act.sendEvent i b :: tr) = (i, b) :: sendsOf tr := rfl

theorem sendsOf_setAccepted (b : Bool) (tr : List Act) :
    sendsOf (Act.setAccepted b :: tr) = sendsOf tr := rfl

theorem shareLoop_sends (recv : Nat → Ev → Bool) (acc0 : Bool) (f : Nat)
    (vs : List View) (e : Ev) (he : e.accepted = acc0) :
    sendsOf (shareLoop recv acc0 f vs e).2
      = (vs.filter (fun v => !(v.vid = f : Bool))).map (fun v => (v.vid, acc0)) := by
  induction vs generalizing e with
  | nil => rfl
  | cons v vtl ih =>
    by_cases hvf : v.vid = f
    · simp [shareLoop, hvf, ih e he]
    · have ih2 := ih { type := e.type, key := e.key, accepted := acc0 } rfl
      simp [shareLoop, hvf, sendsOf_send, sendsOf_setAccepted, ih2, he]

theorem sendsOf_append (a b : List Act) :
    sendsOf (a ++ b) = sendsOf a ++ sendsOf b :=
  List.filterMap_append a b _

theorem sendsOf_removeFilter (tr : List Act) :
    sendsOf (Act.removeFilter :: tr) = sendsOf tr := rfl

theorem sendsOf_installFilter (tr : List Act) :
    sendsOf (Act.installFilter :: tr) = sendsOf tr := rfl

/-- C3: `Application::shareEvent` forwards the event to every view in
`m_views` other than `from`, each exactly once (in list order), and the
accepted flag observed at every send is the flag's value on entry; when
`from` is null or not contained in `m_views`, no view receives anything. -/
theorem C3_shareEvent_forwards_to_others (recv : Nat → Ev → Bool)
    (s : AppState) (f : Nat) (e : Ev) :
    sendsOf (shareEvent recv s (some f) e).2.2
      = (if s.views.any (fun v => v.vid = f)
         then (s.views.filter (fun v => !(v.vid = f : Bool))).map
                (fun v => (v.vid, e.accepted))
         else [])
    ∧ sendsOf (shareEvent recv s none e).2.2 = [] := by
  constructor
  · by_cases hmem : s.views.any (fun v => v.vid = f)
    · simp only [shareEvent, if_pos hmem, hmem, if_true, sendsOf_removeFilter,
        sendsOf_append, shareLoop_sends recv e.accepted f s.views e rfl]
      simp [sendsOf]
    · simp only [shareEvent, hmem, if_false]
      simp [hmem, sendsOf_nil]
  · rfl

/-- Whether every `sendEvent` in a trace happens while the application's
own event filter is uninstalled, tracking the installed state `b` through
the `removeFilter` / `installFilter` actions of the trace. -/
def noSendWhileInstalled : Bool → List Act → Bool
  | _, [] => true
  | _, Act.removeFilter :: rest => noSendWhileInstalled false rest
  | _, Act.installFilter :: rest => noSendWhileInstalled true rest
  | b, Act.sendEvent _ _ :: rest => !b && noSendWhileInstalled b rest
  | b, _ :: rest => noSendWhileInstalled b rest

theorem shareLoop_noSend (recv : Nat → Ev → Bool) (acc0 : Bool) (f : Nat)
    (vs : List View) (e : Ev) (tail : List Act) :
    noSendWhileInstalled false ((shareLoop recv acc0 f vs e).2 ++ tail)
      = noSendWhileInstalled false tail := by
  induction vs generalizing e with
  | nil => rfl
  | cons v vtl ih =>
    by_cases hvf : v.vid = f
    · simp only [shareLoop, if_pos hvf]
      exact ih e
    · simp only [shareLoop, if_neg hvf, List.cons_append]
      show (!false && _) = _
      simp only [Bool.not_false, Bool.true_and]
      exact ih _

/-- C4: recursive forwarding is suppressed: in the action trace of
`shareEvent` every `sendEvent` happens while the application's own event
filter is uninstalled (it is removed before any send and reinstalled only
afterward), and when the filter was installed on entry it is installed
again on exit. -/
theorem C4_no_recursive_forwarding (recv : Nat → Ev → Bool) (s : AppState)
    (fromV : Option Nat) (e : Ev) :
    noSendWhileInstalled s.filterInstalled (shareEvent recv s fromV e).2.2 = true
    ∧ (shareEvent recv { s with filterInstalled := true } fromV e).1.filterInstalled
        = true := by
  constructor
  · cases fromV with
    | none => rfl
    | some f =>
      by_cases hmem : s.views.any (fun v => v.vid = f)
      · simp only [shareEvent, hmem, if_true]
        show noSendWhileInstalled false _ = true
        rw [shareLoop_noSend]
        rfl
      · simp only [shareEvent, hmem, if_false]
        rfl
  · cases fromV with
    | none => rfl
    | some f =>
      by_cases hmem : ({ s with filterInstalled := true } : AppState).views.any
          (fun v => v.vid = f)
      · simp [shareEvent, hmem]
      · simp [shareEvent, hmem]

theorem findCursorView_eq_find (cursor : Point) (vs : List View) :
    findCursorView cursor vs = vs.find? (fun v => v.geometry.containsP cursor) := by
  induction vs with
  | nil => rfl
  | cons v vtl ih =>
    by_cases hc : v.geometry.containsP cursor
    · simp [findCursorView, hc, List.find?_cons_of_pos]
    · simp only [findCursorView, hc, if_false, Bool.false_eq_true, ih]
      rw [List.find?_cons_of_neg]
      simpa using hc

/-- C10: `Application::getActiveScreen` returns null exactly when
`m_views` is empty; otherwise it returns the first view whose geometry
contains the cursor position, falling back to `m_views.first()` when no
view's geometry contains it — equivalently, it agrees with
`find?` followed by `head?` as fallback, and so is never null on a
non-empty view list. -/
theorem C10_getActiveScreen_selection (cursor : Point) (views : List View) :
    (getActiveScreen cursor views = none ↔ views = [])
    ∧ getActiveScreen cursor views
        = ((views.find? (fun v => v.geometry.containsP cursor)).orElse
            (fun _ => views.head?)) := by
  cases views with
  | nil => exact ⟨by simp [getActiveScreen], rfl⟩
  | cons v0 vtl =>
    constructor
    · simp only [getActiveScreen, findCursorView_eq_find]
      cases h : (v0 :: vtl).find? (fun v => v.geometry.containsP cursor) <;> simp
    · simp only [getActiveScreen, findCursorView_eq_find]
      cases h : (v0 :: vtl).find? (fun v => v.geometry.containsP cursor) <;>
        simp [h, Option.orElse]

/-- `view->setGeometry(geo)` on the view at index `i` of `m_views`;
out-of-range indices leave the list unchanged (the callers guard this). -/
def setGeoAt : List View → Nat → Rect → List View
  | [], _, _ => []
  | v :: vs, 0, g => { v with geometry := g } :: vs
  | v :: vs, n + 1, g => v :: setGeoAt vs n g

/-- `Application::screenGeometryChanged`: look up the screen's index in
`QGuiApplication::screens()` (`indexOf`, none standing for `-1`); if it is
not found, or the index is not below `m_views.size()`, warn and return
with the state unchanged; otherwise set the geometry of the view at that
index. -/
def screenGeometryChanged (screens : List Screen) (s : AppState)
    (scId : Nat) (geo : Rect) : AppState :=
  match screens.findIdx? (fun sc => sc.sid = scId) with
  | none => s
  | some i =>
    if s.views.length ≤ i then s
    else { s with views := setGeoAt s.views i geo }

theorem setGeoAt_getD_self (vs : List View) (i : Nat) (g : Rect)
    (h : i < vs.length) :
    (setGeoAt vs i g).getD i dummyView
      = { vs.getD i dummyView with geometry := g } := by
  induction vs generalizing i with
  | nil => simp at h
  | cons v vtl ih =>
    cases i with
    | zero => rfl
    | succ j =>
      simp only [setGeoAt, List.getD_cons_succ]
      exact ih j (by simpa using h)

theorem setGeoAt_getD_other (vs : List View) (i j : Nat) (g : Rect)
    (h : ¬ j = i) :
    (setGeoAt vs i g).getD j dummyView = vs.getD j dummyView := by
  induction vs generalizing i j with
  | nil => cases i <;> rfl
  | cons v vtl ih =>
    cases i with
    | zero =>
      cases j with
      | zero => exact absurd rfl h
      | succ k => rfl
    | succ m =>
      cases j with
      | zero => rfl
      | succ k =>
        simp only [setGeoAt, List.getD_cons_succ]
        exact ih m k (by omega)

/-- C5: `Application::screenGeometryChanged` is guarded by defensive
bounds checks: when the screen is not found among the connected screens,
or its index is not below `m_views.size()`, the state is unchanged;
otherwise exactly the view at that index gets the new geometry and every
other view is untouched. -/
theorem C5_screenGeometryChanged_guarded (screens : List Screen)
    (s : AppState) (scId : Nat) (geo : Rect) :
    (screens.findIdx? (fun sc => sc.sid = scId) = none →
        screenGeometryChanged screens s scId geo = s)
    ∧ (∀ i, screens.findIdx? (fun sc => sc.sid = scId) = some i →
        (s.views.length ≤ i → screenGeometryChanged screens s scId geo = s)
        ∧ (i < s.views.length →
            ((screenGeometryChanged screens s scId geo).views.getD i dummyView
                = { s.views.getD i dummyView with geometry := geo })
            ∧ ∀ j, ¬ j = i →
                (screenGeometryChanged screens s scId geo).views.getD j dummyView
                  = s.views.getD j dummyView)) := by
  constructor
  · intro hnone
    simp [screenGeometryChanged, hnone]
  · intro i hfound
    constructor
    · intro hout
      simp [screenGeometryChanged, hfound, hout]
    · intro hin
      have hif : screenGeometryChanged screens s scId geo
          = { s with views := setGeoAt s.views i geo } := by
        simp [screenGeometryChanged, hfound]
        omega
      refine ⟨?_, ?_⟩
      · rw [hif]
        exact setGeoAt_getD_self s.views i geo hin
      · intro j hj
        rw [hif]
        exact setGeoAt_getD_other s.views i j geo hj

/-- Witness for C5 at concrete inputs: updating the geometry of the
screen at index 1 changes exactly the view at index 1, and an unknown
screen leaves the state unchanged. -/
theorem C5_screenGeometryChanged_guarded_witness :
    ((screenGeometryChanged [screenA, screenB] stateAB 11 rectA).views.getD 1
        dummyView = { stateAB.views.getD 1 dummyView with geometry := rectA })
    ∧ screenGeometryChanged [screenA, screenB] stateAB 99 rectA = stateAB :=
  ⟨(((C5_screenGeometryChanged_guarded [screenA, screenB] stateAB 11
      rectA).2 1 (by decide)).2 (by decide)).1,
   (C5_screenGeometryChanged_guarded [screenA, screenB] stateAB 99
      rectA).1 (by decide)⟩

/-- The search loop of `Application::onSucceeded`: the first view whose
assigned screen is the primary screen. -/
def findMainView (primaryId : Nat) : List View → Option View
  | [] => none
  | v :: vs =>
    if v.screenId = some primaryId then some v else findMainView primaryId vs

/-- `Application::onSucceeded`: when a view on the primary screen exists,
start a 500 ms `QVariantAnimation` with an `OutSine` easing curve from the
view's geometry `y` to `y + -height`, with `QCoreApplication::exit()`
connected to the animation's `finished` signal (recorded as
`exitOnFinish`); otherwise call `QCoreApplication::exit()` immediately. -/
def onSucceeded (primaryId : Nat) (s : AppState) : List Act :=
  match findMainView primaryId s.views with
  | some mainView =>
    [Act.startAnimation mainView.vid mainView.geometry.y
      (mainView.geometry.y + -mainView.geometry.h) 500 Easing.outSine true]
  | none => [Act.exitApp]

theorem findMainView_eq_find (primaryId : Nat) (vs : List View) :
    findMainView primaryId vs
      = vs.find? (fun v => v.screenId = some primaryId) := by
  induction vs with
  | nil => rfl
  | cons v vtl ih =>
    by_cases hp : v.screenId = some primaryId
    · simp [findMainView, hp, List.find?_cons_of_pos]
    · simp only [findMainView, hp, if_false, ih]
      rw [List.find?_cons_of_neg]
      simpa using hp

/-- C6: on authentication success the view on the primary screen (the
first one found) is slid out: its `y` is animated from the geometry's `y`
to `y` minus the geometry's height over 500 ms with an `OutSine` easing
curve, and the application exits only when the animation finishes; when no
view is on the primary screen the process exits immediately with no
animation. -/
theorem C6_onSucceeded_slide_out (primaryId : Nat) (s : AppState) :
    (s.views.find? (fun w => w.screenId = some primaryId) = none →
        onSucceeded primaryId s = [Act.exitApp])
    ∧ (∀ v, s.views.find? (fun w => w.screenId = some primaryId) = some v →
        onSucceeded primaryId s
          = [Act.startAnimation v.vid v.geometry.y
              (v.geometry.y - v.geometry.h) 500 Easing.outSine true]) := by
  constructor
  · intro hnone
    simp [onSucceeded, findMainView_eq_find, hnone]
  · intro v hsome
    simp only [onSucceeded, findMainView_eq_find, hsome]
    rw [Int.sub_eq_add_neg]

/-- Witness for C6 at a concrete input: with primary screen `screenA` the
view `viewA` is animated from `y = 0` down by its height. -/
theorem C6_onSucceeded_slide_out_witness :
    onSucceeded 10 stateAB
      = [Act.startAnimation viewA.vid viewA.geometry.y
          (viewA.geometry.y - viewA.geometry.h) 500 Easing.outSine true] :=
  (C6_onSucceeded_slide_out 10 stateAB).2 viewA (by decide)

/-- `Application::getFocus`: return immediately when `getActiveScreen()`
is null; otherwise (when not testing) enable the keyboard grab on every
view of `m_views` and on the active screen window, then request its
activation.  The active screen is itself an element of `m_views`, so its
extra grab is modelled by identity (`vid`). -/
def grabAllActs (testing : Bool) (vs : List View) : List Act :=
  if testing then [] else vs.map (fun v => Act.setKeyboardGrab v.vid true)

/-- The loop of `getFocus` over `m_views`: each view's keyboard grab is
enabled unless testing. -/
def grabAllViews (testing : Bool) (vs : List View) : List View :=
  vs.map (fun v => if testing then v else { v with keyboardGrab := true })

/-- `activeScreen->setKeyboardGrabEnabled(true)` on the view list: the
active screen is an element of `m_views`, identified by `vid`. -/
def grabActiveViews (testing : Bool) (activeId : Nat) (vs : List View) :
    List View :=
  if testing then vs
  else vs.map (fun v =>
    if v.vid = activeId then { v with keyboardGrab := true } else v)

def getFocus (cursor : Point) (s : AppState) : AppState × List Act :=
  match getActiveScreen cursor s.views with
  | none => (s, [])
  | some activeScreen =>
    ({ s with views := grabActiveViews s.testing activeScreen.vid
                         (grabAllViews s.testing s.views) },
      grabAllActs s.testing s.views
        ++ (if s.testing then [] else [Act.setKeyboardGrab activeScreen.vid true])
        ++ [Act.requestActivate activeScreen.vid])

/-- `Application::eventFilter`.  The first branch (`obj != this` and a
`Show` event) only runs now-disabled platform-specific code and returns
false.  A `MouseButtonPress` activates the active screen (when there is
one) and returns false.  A `KeyPress` is shared and returns false.  A
`KeyRelease` is shared and returns false unless its key is
`Qt::Key_Escape`, which is consumed (returns true).  Everything else
returns false.  `getActiveScreen` is pure, so the source's two calls to it
are modelled by one.  Result: (consumed, state, event, actions). -/
def eventFilter (recv : Nat → Ev → Bool) (cursor : Point) (s : AppState)
    (obj : Obj) (e : Ev) : Bool × AppState × Ev × List Act :=
  if ¬ obj = Obj.app ∧ e.type = EvType.show then (false, s, e, [])
  else if e.type = EvType.mouseButtonPress then
    match getActiveScreen cursor s.views with
    | some a => (false, s, e, [Act.requestActivate a.vid])
    | none => (false, s, e, [])
  else if e.type = EvType.keyPress then
    let r := shareEvent recv s (castView obj) e
    (false, r.1, r.2.1, r.2.2)
  else if e.type = EvType.keyRelease then
    if ¬ e.key = keyEscape then
      let r := shareEvent recv s (castView obj) e
      (false, r.1, r.2.1, r.2.2)
    else (true, s, e, [])
  else (false, s, e, [])

theorem findCursorView_mem (cursor : Point) (vs : List View) (a : View)
    (h : findCursorView cursor vs = some a) : a ∈ vs := by
  induction vs with
  | nil => simp [findCursorView] at h
  | cons v vtl ih =>
    by_cases hc : v.geometry.containsP cursor
    · simp only [findCursorView, hc, if_true, Option.some.injEq] at h
      simp [h]
    · simp only [findCursorView, hc, if_false, Bool.false_eq_true] at h
      exact List.mem_cons_of_mem v (ih h)

theorem getActiveScreen_mem (cursor : Point) (vs : List View) (a : View)
    (h : getActiveScreen cursor vs = some a) : a ∈ vs := by
  cases vs with
  | nil => simp [getActiveScreen] at h
  | cons v0 vtl =>
    cases hf : findCursorView cursor (v0 :: vtl) with
    | some w =>
      simp only [getActiveScreen, hf, Option.some.injEq] at h
      exact h ▸ findCursorView_mem cursor _ w hf
    | none =>
      simp only [getActiveScreen, hf, Option.some.injEq] at h
      simp [← h]

/-- C9: the event filter consumes exactly one kind of event: a
`KeyRelease` whose key is `Qt::Key_Escape`; for every other object/event
combination it returns false and lets the event pass through. -/
theorem C9_filter_consumes_only_escape_release (recv : Nat → Ev → Bool)
    (cursor : Point) (s : AppState) (obj : Obj) (e : Ev) :
    (eventFilter recv cursor s obj e).1 = true
      ↔ (e.type = EvType.keyRelease ∧ e.key = keyEscape) := by
  cases e with
  | mk ty k acc =>
    cases ty <;>
      by_cases hobj : obj = Obj.app <;>
        by_cases hk : k = keyEscape <;>
          simp [eventFilter, hobj, hk] <;>
            (try cases getActiveScreen cursor s.views) <;> simp

/-- C8: while locked, a `MouseButtonPress` seen by the event filter with a
non-empty `m_views` requests activation of the active screen (a member of
`m_views`), and the event is not consumed: the filter returns false. -/
theorem C8_mouse_press_activates (recv : Nat → Ev → Bool) (cursor : Point)
    (s : AppState) (obj : Obj) (e : Ev)
    (ht : e.type = EvType.mouseButtonPress) (hne : ¬ s.views = []) :
    (eventFilter recv cursor s obj e).1 = false
    ∧ ∃ a, getActiveScreen cursor s.views = some a ∧ a ∈ s.views
        ∧ (eventFilter recv cursor s obj e).2.2.2 = [Act.requestActivate a.vid] := by
  obtain ⟨v0, vtl, hv⟩ : ∃ v0 vtl, s.views = v0 :: vtl := by
    cases hvs : s.views with
    | nil => exact absurd hvs hne
    | cons v0 vtl => exact ⟨v0, vtl, rfl⟩
  have hshow : ¬ (¬ obj = Obj.app ∧ e.type = EvType.show) := by
    rintro ⟨-, habs⟩
    rw [ht] at habs
    exact EvType.noConfusion habs
  obtain ⟨a, ha⟩ : ∃ a, getActiveScreen cursor s.views = some a := by
    rw [hv]
    cases hf : findCursorView cursor (v0 :: vtl) with
    | some w => exact ⟨w, by simp [getActiveScreen, hf]⟩
    | none => exact ⟨v0, by simp [getActiveScreen, hf]⟩
  refine ⟨?_, a, ha, getActiveScreen_mem cursor s.views a ha, ?_⟩
  · simp [eventFilter, hshow, ht, ha]
  · simp [eventFilter, hshow, ht, ha]

/-- Witness for C8 at a concrete input: a mouse press with the cursor on
the first screen of the two-view state. -/
theorem C8_mouse_press_activates_witness :
    (eventFilter (fun _ _ => true) ⟨100, 100⟩ stateAB Obj.app
        ⟨EvType.mouseButtonPress, 0, false⟩).1 = false
    ∧ ∃ a, getActiveScreen ⟨100, 100⟩ stateAB.views = some a
        ∧ a ∈ stateAB.views
        ∧ (eventFilter (fun _ _ => true) ⟨100, 100⟩ stateAB Obj.app
            ⟨EvType.mouseButtonPress, 0, false⟩).2.2.2
          = [Act.requestActivate a.vid] :=
  C8_mouse_press_activates (fun _ _ => true) ⟨100, 100⟩ stateAB Obj.app
    ⟨EvType.mouseButtonPress, 0, false⟩ rfl (by decide)

/-- Whether an action is anything other than a keyboard-grab release
(`setKeyboardGrabEnabled(false)`). -/
def actKeepsGrab : Act → Bool
  | Act.setKeyboardGrab _ false => false
  | _ => true

/-- A trace contains no keyboard-grab release. -/
def grabDisableFree (tr : List Act) : Bool := tr.all actKeepsGrab

/-- The state-mutating operations of `Application`, each with the
environment it reads (connected screens, cursor position, event,
originating object, primary screen, and the `sendEvent` oracle restricted
to a constant accepted result so operations stay enumerable).
`initialViewSetup` and `onScreenAdded` both run `desktopResized` after
connecting signals; `markViewsAsVisible` writes the `viewVisible` QML
property and queues `getFocus`, which is its input-grab effect. -/
inductive Op where
  | opInitialViewSetup (screens : List Screen)
  | opDesktopResized (screens : List Screen)
  | opScreenAdded (screens : List Screen)
  | opScreenGeometryChanged (screens : List Screen) (scId : Nat) (geo : Rect)
  | opGetFocus (cursor : Point)
  | opMarkViewsAsVisible (cursor : Point)
  | opShareEvent (recvAcc : Bool) (fromV : Option Nat) (e : Ev)
  | opEventFilter (recvAcc : Bool) (cursor : Point) (obj : Obj) (e : Ev)
  | opOnSucceeded (primaryId : Nat)

/-- Run one operation: the updated application state and the recorded
window-system actions. -/
def applyOp : Op → AppState → AppState × List Act
  | .opInitialViewSetup screens, s => (desktopResized screens s, [])
  | .opDesktopResized screens, s => (desktopResized screens s, [])
  | .opScreenAdded screens, s => (desktopResized screens s, [])
  | .opScreenGeometryChanged screens scId geo, s =>
    (screenGeometryChanged screens s scId geo, [])
  | .opGetFocus cursor, s => getFocus cursor s
  | .opMarkViewsAsVisible cursor, s => getFocus cursor s
  | .opShareEvent recvAcc fromV e, s =>
    let r := shareEvent (fun _ _ => recvAcc) s fromV e
    (r.1, r.2.2)
  | .opEventFilter recvAcc cursor obj e, s =>
    let r := eventFilter (fun _ _ => recvAcc) cursor s obj e
    (r.2.1, r.2.2.2)
  | .opOnSucceeded primaryId, s => (s, onSucceeded primaryId s)

theorem grabDisableFree_append (a b : List Act) :
    grabDisableFree (a ++ b) = (grabDisableFree a && grabDisableFree b) :=
  List.all_append

theorem grabDisableFree_shareLoop (recv : Nat → Ev → Bool) (acc0 : Bool)
    (f : Nat) (vs : List View) (e : Ev) :
    grabDisableFree (shareLoop recv acc0 f vs e).2 = true := by
  induction vs generalizing e with
  | nil => rfl
  | cons v vtl ih =>
    by_cases hvf : v.vid = f
    · simp only [shareLoop, if_pos hvf]
      exact ih e
    · simp only [shareLoop, if_neg hvf]
      simp [grabDisableFree, actKeepsGrab] at ih ⊢
      exact ih _

theorem grabDisableFree_shareEvent (recv : Nat → Ev → Bool) (s : AppState)
    (fromV : Option Nat) (e : Ev) :
    grabDisableFree (shareEvent recv s fromV e).2.2 = true := by
  cases fromV with
  | none => rfl
  | some f =>
    by_cases hmem : s.views.any (fun v => v.vid = f)
    · have hloop := grabDisableFree_shareLoop recv e.accepted f s.views e
      simp only [shareEvent, hmem, if_true]
      simp [grabDisableFree, actKeepsGrab, grabDisableFree_append] at hloop ⊢
      exact hloop
    · simp [shareEvent, hmem]
      rfl

theorem grabDisableFree_getFocus (cursor : Point) (s : AppState) :
    grabDisableFree (getFocus cursor s).2 = true := by
  cases ha : getActiveScreen cursor s.views with
  | none => simp [getFocus, ha]; rfl
  | some a =>
    simp only [getFocus, ha, grabDisableFree_append, Bool.and_eq_true]
    refine ⟨⟨?_, ?_⟩, ?_⟩
    · by_cases ht : s.testing
      · simp [grabAllActs, ht]; rfl
      · have hacts : grabAllActs s.testing s.views
            = s.views.map (fun v => Act.setKeyboardGrab v.vid true) := by
          simp [grabAllActs, ht]
        rw [hacts]
        simp only [grabDisableFree, List.all_eq_true]
        intro v hv
        obtain ⟨w, -, hw⟩ := List.mem_map.mp hv
        rw [← hw]
        simp [actKeepsGrab]
    · by_cases ht : s.testing <;> simp [ht] <;> rfl
    · rfl

theorem grabDisableFree_eventFilter (recv : Nat → Ev → Bool)
    (cursor : Point) (s : AppState) (obj : Obj) (e : Ev) :
    grabDisableFree (eventFilter recv cursor s obj e).2.2.2 = true := by
  by_cases hshow : ¬ obj = Obj.app ∧ e.type = EvType.show
  · simp [eventFilter, hshow]; rfl
  · by_cases hm : e.type = EvType.mouseButtonPress
    · cases ha : getActiveScreen cursor s.views <;>
        simp [eventFilter, hshow, hm, ha] <;> rfl
    · by_cases hkp : e.type = EvType.keyPress
      · simpa [eventFilter, hshow, hm, hkp]
          using grabDisableFree_shareEvent recv s (castView obj) e
      · by_cases hkr : e.type = EvType.keyRelease
        · by_cases hesc : e.key = keyEscape
          · simp [eventFilter, hshow, hm, hkp, hkr, hesc]; rfl
          · simpa [eventFilter, hshow, hm, hkp, hkr, hesc]
              using grabDisableFree_shareEvent recv s (castView obj) e
        · simp [eventFilter, hshow, hm, hkp, hkr]; rfl

theorem grabDisableFree_onSucceeded (primaryId : Nat) (s : AppState) :
    grabDisableFree (onSucceeded primaryId s) = true := by
  cases h : findMainView primaryId s.views <;> simp [onSucceeded, h] <;> rfl

theorem grabDisableFree_applyOp (op : Op) (s : AppState) :
    grabDisableFree (applyOp op s).2 = true := by
  cases op with
  | opInitialViewSetup screens => rfl
  | opDesktopResized screens => rfl
  | opScreenAdded screens => rfl
  | opScreenGeometryChanged screens scId geo => rfl
  | opGetFocus cursor => exact grabDisableFree_getFocus cursor s
  | opMarkViewsAsVisible cursor => exact grabDisableFree_getFocus cursor s
  | opShareEvent recvAcc fromV e =>
    exact grabDisableFree_shareEvent (fun _ _ => recvAcc) s fromV e
  | opEventFilter recvAcc cursor obj e =>
    exact grabDisableFree_eventFilter (fun _ _ => recvAcc) cursor s obj e
  | opOnSucceeded primaryId => exact grabDisableFree_onSucceeded primaryId s

theorem grabAllViews_all (vs : List View) (v : View)
    (hv : v ∈ grabAllViews false vs) : v.keyboardGrab = true := by
  simp only [grabAllViews, List.mem_map] at hv
  obtain ⟨w, -, hw⟩ := hv
  simp only [Bool.false_eq_true, if_false] at hw
  rw [← hw]

theorem grabActiveViews_all (t : Bool) (aid : Nat) (vs : List View)
    (hall : ∀ w ∈ vs, w.keyboardGrab = true) (v : View)
    (hv : v ∈ grabActiveViews t aid vs) : v.keyboardGrab = true := by
  cases t with
  | true => exact hall v (by simpa [grabActiveViews] using hv)
  | false =>
    simp only [grabActiveViews, Bool.false_eq_true, if_false,
      List.mem_map] at hv
    obtain ⟨w, hwmem, hw⟩ := hv
    by_cases hid : w.vid = aid
    · simp only [hid, if_true] at hw
      rw [← hw]
    · simp only [hid, if_false] at hw
      rw [← hw]
      exact hall w hwmem

theorem getActiveScreen_some_of_ne_nil (cursor : Point) (vs : List View)
    (h : ¬ vs = []) : ∃ a, getActiveScreen cursor vs = some a := by
  cases vs with
  | nil => exact absurd rfl h
  | cons v0 vtl =>
    cases hf : findCursorView cursor (v0 :: vtl) with
    | some w => exact ⟨w, by simp [getActiveScreen, hf]⟩
    | none => exact ⟨v0, by simp [getActiveScreen, hf]⟩

/-- C7 (amended): the input-grab layer only ever grabs:
`Application::getFocus` enables the keyboard grab on every view in
`m_views` and on the active screen window when not in testing mode, and
requests the active screen's activation; but no operation of the program
ever releases the grab — the action trace of every operation, from every
state, is free of `setKeyboardGrabEnabled(false)`.  The grab ends only
implicitly, when the windows are destroyed at process exit. -/
theorem C7_grab_enabled_never_released (cursor : Point) (s : AppState)
    (hT : s.testing = false) (hne : ¬ s.views = []) :
    ((getFocus cursor s).1.views.all (fun v => v.keyboardGrab)) = true
    ∧ (∃ a, getActiveScreen cursor s.views = some a
        ∧ Act.setKeyboardGrab a.vid true ∈ (getFocus cursor s).2
        ∧ Act.requestActivate a.vid ∈ (getFocus cursor s).2)
    ∧ ∀ (op : Op) (s2 : AppState), grabDisableFree (applyOp op s2).2 = true := by
  obtain ⟨a, ha⟩ := getActiveScreen_some_of_ne_nil cursor s.views hne
  have hall : ∀ w ∈ grabAllViews s.testing s.views, w.keyboardGrab = true := by
    rw [hT]
    exact fun w hw => grabAllViews_all s.views w hw
  refine ⟨?_, ⟨a, ha, ?_, ?_⟩, fun op s2 => grabDisableFree_applyOp op s2⟩
  · have hviews : (getFocus cursor s).1.views
        = grabActiveViews s.testing a.vid (grabAllViews s.testing s.views) := by
      simp [getFocus, ha]
    rw [hviews, List.all_eq_true]
    exact fun v hv => grabActiveViews_all s.testing a.vid _ hall v hv
  · simp [getFocus, ha, hT]
  · simp [getFocus, ha, hT]

/-- Witness for the amended C7 at a concrete input: in the two-view
locked state both views end up grabbed, and the `getFocus` operation
performs no grab release. -/
theorem C7_grab_enabled_never_released_witness :
    ((getFocus ⟨100, 100⟩ stateAB).1.views.all (fun v => v.keyboardGrab)) = true
    ∧ grabDisableFree (applyOp (Op.opGetFocus ⟨100, 100⟩) stateAB).2 = true :=
  ⟨(C7_grab_enabled_never_released ⟨100, 100⟩ stateAB (by decide) (by decide)).1,
   (C7_grab_enabled_never_released ⟨100, 100⟩ stateAB (by decide) (by decide)).2.2
     (Op.opGetFocus ⟨100, 100⟩) stateAB⟩

/-- One concrete instance of every operation of the program, at
representative inputs over the two-screen fixtures. -/
def opsProbe : List Op :=
  [Op.opInitialViewSetup [screenA, screenB],
   Op.opDesktopResized [screenA, screenB],
   Op.opDesktopResized [screenA],
   Op.opScreenAdded [screenA, screenB],
   Op.opScreenGeometryChanged [screenA, screenB] 11 rectB,
   Op.opGetFocus ⟨100, 100⟩,
   Op.opMarkViewsAsVisible ⟨100, 100⟩,
   Op.opShareEvent true (some 5) ⟨EvType.keyPress, 65, false⟩,
   Op.opShareEvent false none ⟨EvType.keyPress, 65, false⟩,
   Op.opEventFilter true ⟨100, 100⟩ (Obj.view 5) ⟨EvType.keyPress, 65, false⟩,
   Op.opEventFilter true ⟨100, 100⟩ Obj.app ⟨EvType.mouseButtonPress, 0, false⟩,
   Op.opEventFilter true ⟨100, 100⟩ (Obj.view 5)
     ⟨EvType.keyRelease, keyEscape, false⟩,
   Op.opOnSucceeded 10,
   Op.opOnSucceeded 99]

/-- Counterexample to C7 as stated: in the concrete locked state whose
two views both hold the keyboard grab, running every operation of the
program at representative inputs performs no `setKeyboardGrabEnabled(false)`
and leaves every surviving view's grab enabled — no operation of the
program releases the keyboard grab. -/
theorem C7_no_release_counterexample :
    ((opsProbe.all (fun op => grabDisableFree (applyOp op stateAB).2))
      && (opsProbe.all (fun op =>
            (applyOp op stateAB).1.views.all (fun v => v.keyboardGrab)))) = true := by
  decide
